import Mathlib

/-!
# Mock service control client (dsl/mock_service_http2.go)

A shallow embedding of `MockServiceHttp2` and of its five methods `call`,
`DeleteInteractions`, `AddInteraction`, `Verify` and `WritePact`.

* A Go string is its byte sequence (`GoString`); a literal of the source is
  written `lit "..."`, and `fmt.Sprintf("%s/x", s)` is `s ++ lit "/x"`.
* A JSON string value is written as its UTF-8 bytes; `json.Marshal` turns a Go
  string into one by replacing every byte that is not part of a valid UTF-8
  sequence by U+FFFD (`jsonString`).
* A Go `error` is `Option GoError`: `none` is `nil`, and a value keeps its
  dynamic type, as Go's interface value does.
* The standard library and the network are parameters: `Lib` holds what
  `json.Marshal` does on an interaction and whether `http.NewRequest` refuses
  a method and URL, and `net : Request → DoResult` is `client.Do`.
* Every operation returns the requests it handed to `client.Do`, in order
  (`sent`), next to its Go result, so that "no network call" is `sent = []`.
* `log.Println` and `fmt.Println` write to the process output only and are
  left out.
-/

namespace Dsl

/-! ## Go strings and their JSON encoding -/

/-- The Go type `string`: a sequence of bytes, valid UTF-8 or not. -/
abbrev GoString := List UInt8

/-- A string literal of the source: the UTF-8 bytes of its text. -/
def lit (s : String) : GoString :=
  s.data.flatMap String.utf8EncodeChar

/-- The byte lies in the closed range. -/
def inRange (lo hi b : UInt8) : Bool :=
  decide (lo ≤ b) && decide (b ≤ hi)

/-- What `utf8.DecodeRuneInString` finds at the head of a non-empty string:
`some n` for a valid sequence of `n` bytes, `none` for `(RuneError, 1)`. The
cases are the tables `first` and `acceptRanges` of `unicode/utf8`: one byte
below 0x80; two bytes from C2..DF; three bytes from E0..EF, where E0 wants a
second byte in A0..BF and ED one in 80..9F; four bytes from F0..F4, where F0
wants a second byte in 90..BF and F4 one in 80..8F; every further byte in
80..BF. -/
def runeLen : GoString → Option Nat
  | [] => none
  | b0 :: rest =>
    if b0 < 0x80 then some 1
    else if b0 < 0xC2 then none
    else if b0 < 0xE0 then
      match rest with
      | b1 :: _ => if inRange 0x80 0xBF b1 then some 2 else none
      | _ => none
    else if b0 < 0xF0 then
      match rest with
      | b1 :: b2 :: _ =>
        if inRange (if b0 = 0xE0 then 0xA0 else 0x80) (if b0 = 0xED then 0x9F else 0xBF) b1 &&
            inRange 0x80 0xBF b2 then some 3
        else none
      | _ => none
    else if b0 < 0xF5 then
      match rest with
      | b1 :: b2 :: b3 :: _ =>
        if inRange (if b0 = 0xF0 then 0x90 else 0x80) (if b0 = 0xF4 then 0x8F else 0xBF) b1 &&
            inRange 0x80 0xBF b2 && inRange 0x80 0xBF b3 then some 4
        else none
      | _ => none
    else none

/-- The string loop of `encoding/json`, as the value it writes: `pending` bytes of
an accepted sequence are still to be copied; at the start of a sequence, a
valid one is copied and an invalid byte is written as U+FFFD (EF BF BD). The
escapes the encoder also writes do not change the value. -/
def jsonStringFrom : Nat → GoString → GoString
  | _, [] => []
  | pending + 1, b :: rest => b :: jsonStringFrom pending rest
  | 0, b :: rest =>
    match runeLen (b :: rest) with
    | none => 0xEF :: 0xBF :: 0xBD :: jsonStringFrom 0 rest
    | some n => b :: jsonStringFrom (n - 1) rest

/-- The JSON string value `json.Marshal` writes for a Go string. -/
def jsonString (s : GoString) : GoString :=
  jsonStringFrom 0 s

/-- The function `utf8.ValidString`, with `pending` bytes of an accepted sequence still
to be passed. -/
def validFrom : Nat → GoString → Bool
  | _, [] => true
  | pending + 1, _ :: rest => validFrom pending rest
  | 0, b :: rest =>
    match runeLen (b :: rest) with
    | none => false
    | some n => validFrom (n - 1) rest

/-- The function `utf8.ValidString`: every byte belongs to a valid UTF-8 sequence. -/
def ValidString (s : GoString) : Bool :=
  validFrom 0 s

/-! ## Data model -/

/-- The value a `json.Marshal` output denotes; strings and field names are given by
their UTF-8 bytes. An object keeps its fields in the order the Go source lists
them; the encoder sorts the keys of a map, which does not change the value. -/
inductive Json where
  | null : Json
  | bool (b : Bool) : Json
  | number (literal : GoString) : Json
  | string (s : GoString) : Json
  | array (items : List Json) : Json
  | object (fields : List (GoString × Json)) : Json

/-- Look up a field of a JSON object. -/
def Json.field : Json → GoString → Option Json
  | .object fields, k => (fields.find? (fun p => p.1 == k)).map Prod.snd
  | _, _ => none

/-- The Go type `*url.Error`: the error type of `url.Parse` and the only error
type `(*http.Client).Do` returns. -/
structure URLError where
  Op : GoString
  URL : GoString
  Err : GoString
  deriving DecidableEq, Repr

/-- Go error values, by dynamic type. -/
inductive GoError where
  /-- The type `*errors.errorString`: what `errors.New(text)` builds. -/
  | errorString (text : GoString) : GoError
  /-- The type `*url.Error`. -/
  | urlError (e : URLError) : GoError
  /-- The error types of `encoding/json` (unsupported type or value, failing marshaler). -/
  | marshalError (text : GoString) : GoError
  /-- Any other error type, with its type name and message. -/
  | other (typeName : GoString) (text : GoString) : GoError
  deriving DecidableEq, Repr

/-- The Go type `http.Header`, restricted to single-valued keys that are already in
canonical form (both keys the source sets are). -/
abbrev Header := List (GoString × GoString)

/-- The method `Header.Set`: replace whatever the key held by the one value. -/
def Header.Set (h : Header) (key value : GoString) : Header :=
  h.filter (fun p => p.1 != key) ++ [(key, value)]

/-- The method `Header.Get`: the value of the key, if the key is present. -/
def Header.Get (h : Header) (key : GoString) : Option GoString :=
  (h.find? (fun p => p.1 == key)).map Prod.snd

/-- The request handed to `client.Do`. `Body = none` is the `nil` body of
`http.NewRequest(method, url, nil)`; `some j` is `bytes.NewReader(body)` for
bytes that encode `j`. -/
structure Request where
  Method : GoString
  URL : GoString
  Header : Header
  Body : Option Json

/-- What `client.Do` delivers when it returns a response: the status code, the
bytes `ioutil.ReadAll(res.Body)` returns, and the error `ReadAll` returns with
them (`none` when the body was read to its end). -/
structure Response where
  StatusCode : Int
  Body : GoString
  ReadErr : Option GoError

/-- Result of `client.Do(req)`: an error (always a `*url.Error`) or a response. -/
inductive DoResult where
  | err (e : URLError) : DoResult
  | res (r : Response) : DoResult

/-- The standard-library behaviour the source relies on and does not define.
`ι` is the type `*Interaction`, declared elsewhere in package `dsl`. -/
structure Lib (ι : Type) where
  /-- The function `json.Marshal` on a non-nil `*Interaction`. -/
  marshalInteraction : ι → Except GoError Json
  /-- The error `http.NewRequest(method, url, _)` returns, if it returns one
  (invalid method, or a URL that `url.Parse` refuses). -/
  newRequestError : GoString → GoString → Option GoError

/-- A value inside the map `WritePact` builds: a `string` or a
`map[string]string`, entries in source order. -/
inductive PactValue where
  | str (s : GoString) : PactValue
  | stringMap (entries : List (GoString × GoString)) : PactValue

/-- The function `json.Marshal` on a string or a map of strings: every key and
string goes through the string encoder. -/
def PactValue.encode : PactValue → Json
  | .str s => .string (jsonString s)
  | .stringMap entries =>
    .object (entries.map (fun e => (jsonString e.1, Json.string (jsonString e.2))))

/-- The three shapes of the `content interface{}` argument of `call`. -/
inductive Content (ι : Type) where
  /-- The untyped `nil` of `DeleteInteractions` and `Verify`. -/
  | nil : Content ι
  /-- The `*Interaction` of `AddInteraction`; `none` is a nil pointer. -/
  | interaction (p : Option ι) : Content ι
  /-- A `map[string]interface{}` of strings and string maps, entries in source
  order. -/
  | stringMaps (entries : List (GoString × PactValue)) : Content ι

/-- The function `json.Marshal(content)`: `nil` and a nil pointer encode to
`null`, maps of strings always encode, an interaction is up to the library. -/
def Marshal {ι : Type} (lib : Lib ι) : Content ι → Except GoError Json
  | .nil => .ok .null
  | .interaction none => .ok .null
  | .interaction (some i) => lib.marshalInteraction i
  | .stringMaps entries =>
    .ok (.object (entries.map (fun e => (jsonString e.1, e.2.encode))))

/-- The function `http.NewRequest(method, url, body)`: an empty method means GET, the
library may refuse, and the new request has an empty header. -/
def NewRequest {ι : Type} (lib : Lib ι) (method url : GoString) (body : Option Json) :
    Except GoError Request :=
  match lib.newRequestError method url with
  | some e => .error e
  | none => .ok ⟨if method = lit "" then lit "GET" else method, url, [], body⟩

/-- The type `MockServiceHttp2` (source lines 19-36). -/
structure MockServiceHttp2 where
  BaseURL : GoString
  Consumer : GoString
  Provider : GoString
  PactFileWriteMode : GoString
  deriving DecidableEq, Repr

/-- Go result of `call` together with the requests it handed to `client.Do`. -/
structure Outcome where
  err : Option GoError
  sent : List Request

/-- State of the receiver after a method, and the method's outcome. -/
structure Effect where
  state : MockServiceHttp2
  err : Option GoError
  sent : List Request

/-! ## Operations -/

/-- The method `call` (source lines 39-75). -/
def call {ι : Type} (lib : Lib ι) (net : Request → DoResult)
    (method url : GoString) (content : Content ι) : Outcome :=
  match Marshal lib content with
  | .error e => ⟨some e, []⟩
  | .ok body =>
    match NewRequest lib method url (if method = lit "POST" then some body else none) with
    | .error e => ⟨some e, []⟩
    | .ok req0 =>
      let req : Request :=
        { req0 with
          Header := (req0.Header.Set (lit "X-Pact-Mock-Service") (lit "true")).Set
            (lit "Content-Type") (lit "application/json") }
      match net req with
      | .err e => ⟨some (.urlError e), [req]⟩
      | .res res =>
        if res.StatusCode < 200 ∨ res.StatusCode ≥ 300 then
          ⟨some (.errorString res.Body), [req]⟩
        else
          ⟨res.ReadErr, [req]⟩

/-- The method `DeleteInteractions` (source lines 78-82). -/
def DeleteInteractions {ι : Type} (lib : Lib ι) (net : Request → DoResult)
    (m : MockServiceHttp2) : Effect :=
  let url := m.BaseURL ++ lit "/interactions"
  let r := call lib net (lit "DELETE") url .nil
  ⟨m, r.err, r.sent⟩

/-- The method `AddInteraction` (source lines 85-89). -/
def AddInteraction {ι : Type} (lib : Lib ι) (net : Request → DoResult)
    (m : MockServiceHttp2) (interaction : Option ι) : Effect :=
  let url := m.BaseURL ++ lit "/interactions"
  let r := call lib net (lit "POST") url (.interaction interaction)
  ⟨m, r.err, r.sent⟩

/-- The method `Verify` (source lines 92-96). -/
def Verify {ι : Type} (lib : Lib ι) (net : Request → DoResult)
    (m : MockServiceHttp2) : Effect :=
  let url := m.BaseURL ++ lit "/interactions/verification"
  let r := call lib net (lit "GET") url .nil
  ⟨m, r.err, r.sent⟩

/-- The method `WritePact` (source lines 99-121). -/
def WritePact {ι : Type} (lib : Lib ι) (net : Request → DoResult)
    (m : MockServiceHttp2) : Effect :=
  if m.Consumer = lit "" ∨ m.Provider = lit "" then
    ⟨m, some (.errorString (lit "Consumer and Provider name need to be provided")), []⟩
  else
    let m1 : MockServiceHttp2 :=
      if m.PactFileWriteMode = lit "" then { m with PactFileWriteMode := lit "overwrite" } else m
    let pact : List (GoString × PactValue) :=
      [ (lit "consumer", .stringMap [(lit "name", m1.Consumer)]),
        (lit "provider", .stringMap [(lit "name", m1.Provider)]),
        (lit "pactFileWriteMode", .str m1.PactFileWriteMode) ]
    let url := m1.BaseURL ++ lit "/pact"
    let r := call lib net (lit "POST") url (.stringMaps pact)
    ⟨m1, r.err, r.sent⟩

/-! ## Concrete collaborators, for runs on explicit inputs -/

/-- The header every request of `call` ends up with (source lines 61-62 on the
empty header of a new request). -/
def controlHeader : Header :=
  [(lit "X-Pact-Mock-Service", lit "true"), (lit "Content-Type", lit "application/json")]

/-- The first byte of the URL is a colon: the case in which the scheme scan
of `net/url` stops with "missing protocol scheme". -/
def missingProtocolScheme (rawURL : GoString) : Bool :=
  rawURL.head? == some 0x3A

/-- A library for concrete runs. Interactions are stood for by their description
and encode to a JSON string. `http.NewRequest` refuses a URL that starts with
a colon, with the `*url.Error` that `url.Parse` builds for it; the three
methods the source uses are valid, so no method is refused. -/
def goLib : Lib GoString where
  marshalInteraction := fun description => .ok (.string (jsonString description))
  newRequestError := fun _ url =>
    if missingProtocolScheme url then
      some (.urlError ⟨lit "parse", url, lit "missing protocol scheme"⟩)
    else none

/-- A mock service that answers every request with the given status and body,
read to its end. -/
def netAnswer (status : Int) (body : GoString) : Request → DoResult :=
  fun _ => .res ⟨status, body, none⟩

/-- The operation name `client.Do` puts into its `*url.Error`: the method with only
its first letter in upper case. -/
def urlErrorOp (method : GoString) : GoString :=
  if method = lit "GET" then lit "Get"
  else if method = lit "POST" then lit "Post"
  else if method = lit "DELETE" then lit "Delete"
  else method

/-- No mock service is listening: `client.Do` fails for every request. -/
def netRefused : Request → DoResult :=
  fun req => .err ⟨urlErrorOp req.Method, req.URL,
    (lit "dial tcp 127.0.0.1:9999: connect: connection refused")⟩

/-- The endpoint of the example test, before its first write. -/
def exampleEndpoint : MockServiceHttp2 :=
  ⟨lit "https://localhost:9999", lit "MyConsumer", lit "MyProvider", lit ""⟩

/-- The write-contract request of `exampleEndpoint`. -/
def examplePactRequest : Request :=
  ⟨lit "POST", lit "https://localhost:9999/pact", controlHeader,
    some (.object
      [ (lit "consumer", .object [(lit "name", .string (lit "MyConsumer"))]),
        (lit "provider", .object [(lit "name", .string (lit "MyProvider"))]),
        (lit "pactFileWriteMode", .string (lit "overwrite")) ])⟩

/-- The one request `call` builds once the content encodes and `http.NewRequest`
accepts: method and URL as given, the two headers of source lines 61-62, and
the encoded content as body for POST only. -/
def callRequest (method url : GoString) (body : Json) : Request :=
  ⟨if method = lit "" then lit "GET" else method, url, controlHeader,
    if method = lit "POST" then some body else none⟩

/-- How `call` turns the result of `client.Do` into its own result (source
lines 64-74). -/
def classify : DoResult → Option GoError
  | .err e => some (.urlError e)
  | .res res =>
    if res.StatusCode < 200 ∨ res.StatusCode ≥ 300 then some (.errorString res.Body)
    else res.ReadErr

/-! ## Words of the specification -/

/-- Success exactly on a 2xx status, and otherwise the failure `errors.New`
builds from the raw body. -/
def StatusRule (err : Option GoError) (status : Int) (body : GoString) : Prop :=
  (err = none ↔ 200 ≤ status ∧ status < 300) ∧
  (¬ (200 ≤ status ∧ status < 300) → err = some (.errorString body))

/-- The request carries the marker header and the content-type header. -/
def ControlMarked (req : Request) : Prop :=
  req.Header.Get (lit "X-Pact-Mock-Service") = some (lit "true") ∧
  req.Header.Get (lit "Content-Type") = some (lit "application/json")

/-- A mutating control call: DELETE and POST change the mock service, GET only
reads it. -/
def mutating (method : GoString) : Bool :=
  method == lit "DELETE" || method == lit "POST"

/-- A payload is present: the operation passes something other than `nil`. -/
def payloadPresent {ι : Type} : Content ι → Bool
  | .nil => false
  | .interaction none => false
  | .interaction (some _) => true
  | .stringMaps _ => true

/-- The map `WritePact` builds from the names and the write mode (source lines
109-117). -/
def pactMap (consumer provider mode : GoString) : List (GoString × PactValue) :=
  [ (lit "consumer", .stringMap [(lit "name", consumer)]),
    (lit "provider", .stringMap [(lit "name", provider)]),
    (lit "pactFileWriteMode", .str mode) ]

/-- The write-contract document with the given JSON strings as consumer name,
provider name and write mode. -/
def pactDocument (consumer provider mode : GoString) : Json :=
  .object
    [ (lit "consumer", .object [(lit "name", .string consumer)]),
      (lit "provider", .object [(lit "name", .string provider)]),
      (lit "pactFileWriteMode", .string mode) ]

/-! ## The string encoder -/

/-- The string encoder copies a valid UTF-8 string as it is. -/
theorem jsonStringFrom_of_valid (pending : Nat) (s : GoString)
    (h : validFrom pending s = true) : jsonStringFrom pending s = s := by
  induction s generalizing pending with
  | nil => cases pending <;> rfl
  | cons b rest ih =>
    cases pending with
    | succ k =>
      simp only [validFrom] at h
      simp only [jsonStringFrom, ih k h]
    | zero =>
      simp only [validFrom] at h
      simp only [jsonStringFrom]
      cases hr : runeLen (b :: rest) with
      | none => rw [hr] at h; simp at h
      | some n =>
        rw [hr] at h
        simp only [ih (n - 1) h]

/-- The string encoder never shortens a string. -/
theorem length_le_jsonStringFrom (pending : Nat) (s : GoString) :
    s.length ≤ (jsonStringFrom pending s).length := by
  induction s generalizing pending with
  | nil => cases pending <;> simp [jsonStringFrom]
  | cons b rest ih =>
    cases pending with
    | succ k =>
      simp only [jsonStringFrom, List.length_cons]
      have := ih k
      omega
    | zero =>
      simp only [jsonStringFrom]
      cases hr : runeLen (b :: rest) with
      | none =>
        simp only [List.length_cons]
        have := ih 0
        omega
      | some n =>
        simp only [List.length_cons]
        have := ih (n - 1)
        omega

/-- The string encoder lengthens a string that is not valid UTF-8: each replaced byte
becomes three. -/
theorem length_lt_jsonStringFrom (pending : Nat) (s : GoString)
    (h : validFrom pending s = false) :
    s.length < (jsonStringFrom pending s).length := by
  induction s generalizing pending with
  | nil => cases pending <;> simp [validFrom] at h
  | cons b rest ih =>
    cases pending with
    | succ k =>
      simp only [validFrom] at h
      simp only [jsonStringFrom, List.length_cons]
      have := ih k h
      omega
    | zero =>
      simp only [validFrom] at h
      simp only [jsonStringFrom]
      cases hr : runeLen (b :: rest) with
      | none =>
        simp only [List.length_cons]
        have := length_le_jsonStringFrom 0 rest
        omega
      | some n =>
        rw [hr] at h
        simp only [List.length_cons]
        have := ih (n - 1) h
        omega

/-- The encoded string is the string itself exactly when the string is valid UTF-8. -/
theorem jsonString_eq_self_iff (s : GoString) :
    jsonString s = s ↔ ValidString s = true := by
  constructor
  · intro h
    by_contra hv
    have hv' : validFrom 0 s = false := by
      simpa [ValidString] using hv
    have := length_lt_jsonStringFrom 0 s hv'
    unfold jsonString at h
    rw [h] at this
    omega
  · intro h
    exact jsonStringFrom_of_valid 0 s h

/-- Only an ASCII string itself encodes to that ASCII string. -/
theorem jsonString_eq_ascii (s t : GoString) (ht : ∀ b ∈ t, b < 0x80)
    (h : jsonString s = t) : s = t := by
  unfold jsonString at h
  induction s generalizing t with
  | nil => simpa [jsonStringFrom] using h
  | cons b rest ih =>
    simp only [jsonStringFrom] at h
    by_cases hb : b < 0x80
    · have hr : runeLen (b :: rest) = some 1 := by simp [runeLen, hb]
      rw [hr] at h
      cases t with
      | nil => simp at h
      | cons c t' =>
        simp only [List.cons.injEq] at h
        obtain ⟨h1, h2⟩ := h
        rw [h1, ih t' (fun x hx => ht x (List.mem_cons_of_mem _ hx)) h2]
    · cases hr : runeLen (b :: rest) with
      | none =>
        rw [hr] at h
        subst h
        exact absurd (ht 0xEF (List.mem_cons_self _ _)) (by decide)
      | some n =>
        rw [hr] at h
        subst h
        exact absurd (ht b (List.mem_cons_self _ _)) hb


/-! ## How `call` behaves -/

section CallLemmas

variable {ι : Type} (lib : Lib ι) (net : Request → DoResult)

/-- Nothing is handed to `client.Do` when the content does not encode. -/
theorem call_marshal_error (method url : GoString) (content : Content ι) (e : GoError)
    (h : Marshal lib content = .error e) :
    call lib net method url content = ⟨some e, []⟩ := by
  simp [call, h]

/-- Nothing is handed to `client.Do` when `http.NewRequest` refuses. -/
theorem call_request_error (method url : GoString) (content : Content ι) (body : Json)
    (e : GoError) (hb : Marshal lib content = .ok body)
    (h : lib.newRequestError method url = some e) :
    call lib net method url content = ⟨some e, []⟩ := by
  simp [call, hb, NewRequest, h]

/-- Once the request is built, `call` hands exactly it to `client.Do` and
returns the classified result. -/
theorem call_accepted (method url : GoString) (content : Content ι) (body : Json)
    (hb : Marshal lib content = .ok body)
    (h : lib.newRequestError method url = none) :
    call lib net method url content =
      ⟨classify (net (callRequest method url body)), [callRequest method url body]⟩ := by
  simp only [call, hb, NewRequest, h, callRequest, classify, controlHeader]
  have hdr : (Header.Set (Header.Set [] (lit "X-Pact-Mock-Service") (lit "true"))
      (lit "Content-Type") (lit "application/json")) =
      [(lit "X-Pact-Mock-Service", lit "true"), (lit "Content-Type", lit "application/json")] := by
    decide
  simp only [hdr]
  cases hn : net _ with
  | err e => simp
  | res res => by_cases hs : res.StatusCode < 200 ∨ res.StatusCode ≥ 300 <;> simp [hs]

/-- Every request `call` hands to `client.Do` is the request it built, it is the
only one, and the result of `call` is the classified result of that exchange. -/
theorem call_mem (method url : GoString) (content : Content ι) (req : Request)
    (h : req ∈ (call lib net method url content).sent) :
    ∃ body, Marshal lib content = .ok body ∧ lib.newRequestError method url = none ∧
      req = callRequest method url body ∧
      (call lib net method url content).sent = [req] ∧
      (call lib net method url content).err = classify (net req) := by
  cases hb : Marshal lib content with
  | error e => rw [call_marshal_error lib net method url content e hb] at h; simp at h
  | ok body =>
    cases hr : lib.newRequestError method url with
    | some e => rw [call_request_error lib net method url content body e hb hr] at h; simp at h
    | none =>
      rw [call_accepted lib net method url content body hb hr] at h ⊢
      simp at h
      exact ⟨body, rfl, rfl, h, by simp [h], by simp [h]⟩

/-- At most one request leaves `call`. -/
theorem call_sent_length_le (method url : GoString) (content : Content ι) :
    (call lib net method url content).sent.length ≤ 1 := by
  cases hb : Marshal lib content with
  | error e => simp [call_marshal_error lib net method url content e hb]
  | ok body =>
    cases hr : lib.newRequestError method url with
    | some e => simp [call_request_error lib net method url content body e hb hr]
    | none => simp [call_accepted lib net method url content body hb hr]

/-- The map of `WritePact` always encodes, to the document of its encoded strings. -/
theorem Marshal_pactMap (consumer provider mode : GoString) :
    Marshal lib (.stringMaps (pactMap consumer provider mode)) =
      .ok (pactDocument (jsonString consumer) (jsonString provider) (jsonString mode)) :=
  rfl

/-- With both names present, `WritePact` fills in the write mode and is one `call`:
a POST of the write-contract document to `BaseURL` followed by "/pact". -/
theorem WritePact_of_names (m : MockServiceHttp2)
    (hc : m.Consumer ≠ lit "") (hp : m.Provider ≠ lit "") :
    WritePact lib net m =
      ⟨{ m with PactFileWriteMode :=
            if m.PactFileWriteMode = lit "" then lit "overwrite" else m.PactFileWriteMode },
        (call lib net (lit "POST") (m.BaseURL ++ lit "/pact")
          (.stringMaps (pactMap m.Consumer m.Provider
            (if m.PactFileWriteMode = lit "" then lit "overwrite" else m.PactFileWriteMode)))).err,
        (call lib net (lit "POST") (m.BaseURL ++ lit "/pact")
          (.stringMaps (pactMap m.Consumer m.Provider
            (if m.PactFileWriteMode = lit "" then lit "overwrite" else m.PactFileWriteMode)))).sent⟩ := by
  unfold WritePact
  rw [if_neg (by simp [hc, hp])]
  by_cases hm : m.PactFileWriteMode = lit ""
  · simp [hm, pactMap]
  · simp [hm, pactMap]

/-- Without one of the names, `WritePact` stops at its check. -/
theorem WritePact_of_missing_name (m : MockServiceHttp2)
    (h : m.Consumer = lit "" ∨ m.Provider = lit "") :
    WritePact lib net m =
      ⟨m, some (.errorString (lit "Consumer and Provider name need to be provided")), []⟩ := by
  unfold WritePact
  rw [if_pos h]

/-- Every request `WritePact` hands to `client.Do` is the POST of the document to
"/pact", the names are present, and the result is the classified exchange. -/
theorem WritePact_mem (m : MockServiceHttp2) (req : Request)
    (h : req ∈ (WritePact lib net m).sent) :
    m.Consumer ≠ lit "" ∧ m.Provider ≠ lit "" ∧
      lib.newRequestError (lit "POST") (m.BaseURL ++ lit "/pact") = none ∧
      req = callRequest (lit "POST") (m.BaseURL ++ lit "/pact")
        (pactDocument (jsonString m.Consumer) (jsonString m.Provider)
          (jsonString
            (if m.PactFileWriteMode = lit "" then lit "overwrite" else m.PactFileWriteMode))) ∧
      (WritePact lib net m).sent = [req] ∧
      (WritePact lib net m).err = classify (net req) := by
  by_cases hn : m.Consumer = lit "" ∨ m.Provider = lit ""
  · rw [WritePact_of_missing_name lib net m hn] at h
    simp at h
  · have hc : m.Consumer ≠ lit "" := fun hc => hn (Or.inl hc)
    have hp : m.Provider ≠ lit "" := fun hp => hn (Or.inr hp)
    rw [WritePact_of_names lib net m hc hp] at h ⊢
    obtain ⟨body, hb, hr, hreq, hsent, herr⟩ := call_mem lib net _ _ _ req h
    rw [Marshal_pactMap] at hb
    cases hb
    exact ⟨hc, hp, hr, hreq, hsent, herr⟩

/-- With both names present and the URL accepted, `WritePact` hands over exactly the
POST of its document. -/
theorem WritePact_sent_of_accepted (m : MockServiceHttp2)
    (hc : m.Consumer ≠ lit "") (hp : m.Provider ≠ lit "")
    (hr : lib.newRequestError (lit "POST") (m.BaseURL ++ lit "/pact") = none) :
    (WritePact lib net m).sent =
      [callRequest (lit "POST") (m.BaseURL ++ lit "/pact")
        (pactDocument (jsonString m.Consumer) (jsonString m.Provider)
          (jsonString
            (if m.PactFileWriteMode = lit "" then lit "overwrite" else m.PactFileWriteMode)))] := by
  rw [WritePact_of_names lib net m hc hp]
  exact congrArg Outcome.sent
    (call_accepted lib net (lit "POST") (m.BaseURL ++ lit "/pact")
      (.stringMaps (pactMap m.Consumer m.Provider
        (if m.PactFileWriteMode = lit "" then lit "overwrite" else m.PactFileWriteMode)))
      _ (Marshal_pactMap lib _ _ _) hr)

/-- The classified result of a response whose body was read to its end follows the
status rule. -/
theorem classify_res_statusRule (status : Int) (body : GoString) :
    StatusRule (classify (.res ⟨status, body, none⟩)) status body := by
  unfold StatusRule classify
  by_cases hs : status < 200 ∨ status ≥ 300
  · have hn : ¬ (200 ≤ status ∧ status < 300) := by omega
    simp [hs, hn]
  · have hy : 200 ≤ status ∧ status < 300 := by omega
    simp [hs, hy]

/-- The request `call` builds carries the two control headers. -/
theorem callRequest_marked (method url : GoString) (body : Json) :
    ControlMarked (callRequest method url body) :=
  ⟨rfl, rfl⟩

/-- At the level of `call`, a request carries a body exactly when the method is
POST; the body is then the encoded content, `null` for `nil` content. -/
theorem call_body_iff_post (method url : GoString) (content : Content ι) (req : Request)
    (h : req ∈ (call lib net method url content).sent) :
    (req.Body.isSome = true ↔ method = lit "POST") := by
  obtain ⟨body, _, _, hr, _, _⟩ := call_mem lib net method url content req h
  rw [hr]
  by_cases hm : method = lit "POST" <;> simp [callRequest, hm]

/-- Which requests `call` hands over does not depend on what the network answers. -/
theorem call_sent_net_irrelevant (net' : Request → DoResult) (method url : GoString)
    (content : Content ι) :
    (call lib net' method url content).sent = (call lib net method url content).sent := by
  cases hb : Marshal lib content with
  | error e =>
    rw [call_marshal_error lib net method url content e hb,
      call_marshal_error lib net' method url content e hb]
  | ok body =>
    cases hr : lib.newRequestError method url with
    | some e =>
      rw [call_request_error lib net method url content body e hb hr,
        call_request_error lib net' method url content body e hb hr]
    | none =>
      rw [call_accepted lib net method url content body hb hr,
        call_accepted lib net' method url content body hb hr]

/-- The state `WritePact` leaves behind when both names are present. -/
theorem WritePact_state_of_names (m : MockServiceHttp2)
    (hc : m.Consumer ≠ lit "") (hp : m.Provider ≠ lit "") :
    (WritePact lib net m).state =
      { m with PactFileWriteMode :=
          if m.PactFileWriteMode = lit "" then lit "overwrite" else m.PactFileWriteMode } := by
  rw [WritePact_of_names lib net m hc hp]

/-- The requests `WritePact` hands over when both names are present. -/
theorem WritePact_sent_of_names (m : MockServiceHttp2)
    (hc : m.Consumer ≠ lit "") (hp : m.Provider ≠ lit "") :
    (WritePact lib net m).sent =
      (call lib net (lit "POST") (m.BaseURL ++ lit "/pact")
        (.stringMaps (pactMap m.Consumer m.Provider
          (if m.PactFileWriteMode = lit "" then lit "overwrite" else m.PactFileWriteMode)))).sent := by
  rw [WritePact_of_names lib net m hc hp]

/-- Filling in the write mode a second time changes nothing. -/
theorem writeMode_filled_twice (mode : GoString) :
    (if (if mode = lit "" then lit "overwrite" else mode) = lit "" then lit "overwrite"
      else (if mode = lit "" then lit "overwrite" else mode)) =
      (if mode = lit "" then lit "overwrite" else mode) := by
  by_cases hm : mode = lit ""
  · simp [hm]
  · simp [hm]

end CallLemmas

/-! ## The claims -/

section Claims

variable {ι : Type}

/-- C1: when Consumer or Provider is the empty string, WritePact returns the local
validation error and hands no request to the transport, whatever the library,
the network, BaseURL and PactFileWriteMode are. -/
theorem WritePact_missing_name_is_local (lib : Lib ι) (net : Request → DoResult)
    (m : MockServiceHttp2) (h : m.Consumer = lit "" ∨ m.Provider = lit "") :
    (WritePact lib net m).err =
        some (.errorString (lit "Consumer and Provider name need to be provided")) ∧
      (WritePact lib net m).sent = [] := by
  rw [WritePact_of_missing_name lib net m h]
  exact ⟨rfl, rfl⟩

/-- C1 at an endpoint without consumer name, with a base URL and the write mode
"update", against a service that would answer 200. -/
theorem WritePact_missing_name_is_local_witness :
    ((⟨lit "https://localhost:9999", lit "", lit "MyProvider", lit "update"⟩ : MockServiceHttp2).Consumer = lit "" ∨
      (⟨lit "https://localhost:9999", lit "", lit "MyProvider", lit "update"⟩ : MockServiceHttp2).Provider = lit "") ∧
    ((WritePact goLib (netAnswer 200 (lit ""))
        ⟨lit "https://localhost:9999", lit "", lit "MyProvider", lit "update"⟩).err =
        some (.errorString (lit "Consumer and Provider name need to be provided")) ∧
      (WritePact goLib (netAnswer 200 (lit ""))
        ⟨lit "https://localhost:9999", lit "", lit "MyProvider", lit "update"⟩).sent = []) :=
  ⟨Or.inl rfl,
    WritePact_missing_name_is_local goLib (netAnswer 200 (lit ""))
      ⟨lit "https://localhost:9999", lit "", lit "MyProvider", lit "update"⟩ (Or.inl rfl)⟩

/-- C2 as stated fails: with both names present and the base URL ":", the URL
":/pact" has no protocol scheme, `http.NewRequest` returns the parse error,
and WritePact returns it without any network call. -/
theorem WritePact_unparsable_url_no_call :
    (⟨lit ":", lit "MyConsumer", lit "MyProvider", lit ""⟩ : MockServiceHttp2).Consumer ≠ lit "" ∧
    (⟨lit ":", lit "MyConsumer", lit "MyProvider", lit ""⟩ : MockServiceHttp2).Provider ≠ lit "" ∧
    (WritePact goLib (netAnswer 200 (lit "")) ⟨lit ":", lit "MyConsumer", lit "MyProvider", lit ""⟩).sent.length ≠ 1 ∧
    (WritePact goLib (netAnswer 200 (lit "")) ⟨lit ":", lit "MyConsumer", lit "MyProvider", lit ""⟩).sent = [] ∧
    (WritePact goLib (netAnswer 200 (lit "")) ⟨lit ":", lit "MyConsumer", lit "MyProvider", lit ""⟩).err =
      some (.urlError ⟨lit "parse", lit ":/pact", lit "missing protocol scheme"⟩) := by
  have hs : (WritePact goLib (netAnswer 200 (lit ""))
      ⟨lit ":", lit "MyConsumer", lit "MyProvider", lit ""⟩).sent = [] := rfl
  exact ⟨by decide, by decide, by rw [hs]; decide, hs, rfl⟩

/-- C2, amended: WritePact hands at most one request to the transport; any request
it hands over is a POST to BaseURL followed by "/pact", is sent only with both
names present, and the result of WritePact is the result of that exchange.
With both names present there is exactly one such request when
`http.NewRequest` accepts the URL, and none, with the error of
`http.NewRequest` as result, when it refuses. -/
theorem WritePact_one_call_when_built (lib : Lib ι) (net : Request → DoResult)
    (m : MockServiceHttp2) :
    (WritePact lib net m).sent.length ≤ 1 ∧
    (∀ req ∈ (WritePact lib net m).sent,
      m.Consumer ≠ lit "" ∧ m.Provider ≠ lit "" ∧
      req.Method = lit "POST" ∧ req.URL = m.BaseURL ++ lit "/pact" ∧
      (WritePact lib net m).err = classify (net req)) ∧
    (m.Consumer ≠ lit "" → m.Provider ≠ lit "" →
      lib.newRequestError (lit "POST") (m.BaseURL ++ lit "/pact") = none →
      ∃ req, (WritePact lib net m).sent = [req]) ∧
    (m.Consumer ≠ lit "" → m.Provider ≠ lit "" →
      ∀ e, lib.newRequestError (lit "POST") (m.BaseURL ++ lit "/pact") = some e →
        (WritePact lib net m).sent = [] ∧ (WritePact lib net m).err = some e) := by
  refine ⟨?_, ?_, ?_, ?_⟩
  · by_cases hn : m.Consumer = lit "" ∨ m.Provider = lit ""
    · simp [WritePact_of_missing_name lib net m hn]
    · rw [WritePact_of_names lib net m (fun hc => hn (Or.inl hc)) (fun hp => hn (Or.inr hp))]
      exact call_sent_length_le lib net _ _ _
  · intro req hreq
    obtain ⟨hc, hp, _, hr, _, herr⟩ := WritePact_mem lib net m req hreq
    refine ⟨hc, hp, ?_, ?_, herr⟩
    · rw [hr]; rfl
    · rw [hr]; rfl
  · intro hc hp hr
    exact ⟨_, WritePact_sent_of_accepted lib net m hc hp hr⟩
  · intro hc hp e hr
    rw [WritePact_of_names lib net m hc hp]
    have h := call_request_error lib net (lit "POST") (m.BaseURL ++ lit "/pact")
      (.stringMaps (pactMap m.Consumer m.Provider
        (if m.PactFileWriteMode = lit "" then lit "overwrite" else m.PactFileWriteMode)))
      _ e (Marshal_pactMap lib _ _ _) hr
    exact ⟨congrArg Outcome.sent h, congrArg Outcome.err h⟩

/-- C2, amended, at the example endpoint: the URL is accepted and exactly one request
goes out. -/
theorem WritePact_one_call_when_built_witness :
    exampleEndpoint.Consumer ≠ lit "" ∧ exampleEndpoint.Provider ≠ lit "" ∧
    goLib.newRequestError (lit "POST") (exampleEndpoint.BaseURL ++ lit "/pact") = none ∧
    ∃ req, (WritePact goLib (netAnswer 200 (lit "")) exampleEndpoint).sent = [req] :=
  ⟨by decide, by decide, rfl,
    (WritePact_one_call_when_built goLib (netAnswer 200 (lit "")) exampleEndpoint).2.2.1
      (by decide) (by decide) rfl⟩

/-- C3: with both names present, every write-contract payload WritePact sends carries
pactFileWriteMode "overwrite" when PactFileWriteMode is empty, and "update"
when PactFileWriteMode is "update"; such a payload is sent whenever
`http.NewRequest` accepts the URL. -/
theorem WritePact_write_mode_sent (lib : Lib ι) (net : Request → DoResult)
    (m : MockServiceHttp2) (hc : m.Consumer ≠ lit "") (hp : m.Provider ≠ lit "") :
    (m.PactFileWriteMode = lit "" →
      ∀ req ∈ (WritePact lib net m).sent, ∃ doc, req.Body = some doc ∧
        doc.field (lit "pactFileWriteMode") = some (.string (lit "overwrite"))) ∧
    (m.PactFileWriteMode = lit "update" →
      ∀ req ∈ (WritePact lib net m).sent, ∃ doc, req.Body = some doc ∧
        doc.field (lit "pactFileWriteMode") = some (.string (lit "update"))) ∧
    (lib.newRequestError (lit "POST") (m.BaseURL ++ lit "/pact") = none →
      (WritePact lib net m).sent ≠ []) := by
  refine ⟨?_, ?_, ?_⟩
  · intro hm req hreq
    obtain ⟨_, _, _, hr, _, _⟩ := WritePact_mem lib net m req hreq
    rw [hr, hm]
    exact ⟨_, rfl, rfl⟩
  · intro hm req hreq
    obtain ⟨_, _, _, hr, _, _⟩ := WritePact_mem lib net m req hreq
    rw [hr, hm]
    exact ⟨_, rfl, rfl⟩
  · intro hr
    rw [WritePact_sent_of_accepted lib net m hc hp hr]
    exact List.cons_ne_nil _ _

/-- C3 at the example endpoint, whose write mode is unset: the request that goes out
carries "overwrite". -/
theorem WritePact_write_mode_sent_witness :
    exampleEndpoint.Consumer ≠ lit "" ∧ exampleEndpoint.Provider ≠ lit "" ∧
    exampleEndpoint.PactFileWriteMode = lit "" ∧
    examplePactRequest ∈ (WritePact goLib (netAnswer 200 (lit "")) exampleEndpoint).sent ∧
    ∃ doc, examplePactRequest.Body = some doc ∧
      doc.field (lit "pactFileWriteMode") = some (.string (lit "overwrite")) :=
  have hmem : examplePactRequest ∈ (WritePact goLib (netAnswer 200 (lit "")) exampleEndpoint).sent :=
    (List.mem_singleton.mpr rfl : examplePactRequest ∈ [examplePactRequest])
  ⟨by decide, by decide, rfl, hmem,
    (WritePact_write_mode_sent goLib (netAnswer 200 (lit "")) exampleEndpoint
      (by decide) (by decide)).1 rfl examplePactRequest hmem⟩

/-- C4 as stated fails: with the consumer name "a\xffb", whose middle byte is not
valid UTF-8, the name in the document WritePact sends has the three bytes of
U+FFFD in its place, and is not Consumer. -/
theorem WritePact_name_replaced :
    ([0x61, 0xFF, 0x62] : GoString) ≠ lit "" ∧ lit "MyProvider" ≠ lit "" ∧
    (WritePact goLib (netAnswer 200 (lit ""))
        ⟨lit "https://localhost:9999", [0x61, 0xFF, 0x62], lit "MyProvider", lit ""⟩).sent =
      [⟨lit "POST", lit "https://localhost:9999/pact", controlHeader,
        some (.object
          [ (lit "consumer", .object [(lit "name", .string [0x61, 0xEF, 0xBF, 0xBD, 0x62])]),
            (lit "provider", .object [(lit "name", .string (lit "MyProvider"))]),
            (lit "pactFileWriteMode", .string (lit "overwrite")) ])⟩] ∧
    ([0x61, 0xEF, 0xBF, 0xBD, 0x62] : GoString) ≠ [0x61, 0xFF, 0x62] :=
  ⟨by decide, by decide, rfl, by decide⟩

/-- C4, amended: with both names present, the body of every request WritePact sends
is the object with exactly the fields "consumer" (whose only field "name" is
Consumer as the string encoder writes it), "provider" (whose only field
"name" is Provider as the string encoder writes it) and "pactFileWriteMode".
The encoded name is the name itself exactly when the name is valid UTF-8, so
for valid UTF-8 names the fields hold Consumer and Provider themselves. The
body is the same whatever BaseURL is, and such a request is sent whenever
`http.NewRequest` accepts the URL. -/
theorem WritePact_document_encoded (lib : Lib ι) (net : Request → DoResult)
    (m : MockServiceHttp2) (hc : m.Consumer ≠ lit "") (hp : m.Provider ≠ lit "") :
    (∀ req ∈ (WritePact lib net m).sent, ∃ mode, req.Body = some (.object
        [ (lit "consumer", .object [(lit "name", .string (jsonString m.Consumer))]),
          (lit "provider", .object [(lit "name", .string (jsonString m.Provider))]),
          (lit "pactFileWriteMode", .string mode) ])) ∧
    (jsonString m.Consumer = m.Consumer ↔ ValidString m.Consumer = true) ∧
    (jsonString m.Provider = m.Provider ↔ ValidString m.Provider = true) ∧
    (ValidString m.Consumer = true → ValidString m.Provider = true →
      ∀ req ∈ (WritePact lib net m).sent, ∃ mode, req.Body = some (.object
        [ (lit "consumer", .object [(lit "name", .string m.Consumer)]),
          (lit "provider", .object [(lit "name", .string m.Provider)]),
          (lit "pactFileWriteMode", .string mode) ])) ∧
    (∀ (net' : Request → DoResult) (baseURL : GoString),
      ∀ req ∈ (WritePact lib net m).sent,
      ∀ req' ∈ (WritePact lib net' { m with BaseURL := baseURL }).sent,
        req'.Body = req.Body) ∧
    (lib.newRequestError (lit "POST") (m.BaseURL ++ lit "/pact") = none →
      (WritePact lib net m).sent ≠ []) := by
  have key : ∀ req ∈ (WritePact lib net m).sent, ∃ mode, req.Body = some (.object
      [ (lit "consumer", .object [(lit "name", .string (jsonString m.Consumer))]),
        (lit "provider", .object [(lit "name", .string (jsonString m.Provider))]),
        (lit "pactFileWriteMode", .string mode) ]) := by
    intro req hreq
    obtain ⟨_, _, _, hr, _, _⟩ := WritePact_mem lib net m req hreq
    rw [hr]
    exact ⟨_, rfl⟩
  refine ⟨key, jsonString_eq_self_iff _, jsonString_eq_self_iff _, ?_, ?_, ?_⟩
  · intro hvc hvp req hreq
    obtain ⟨mode, hb⟩ := key req hreq
    rw [(jsonString_eq_self_iff _).2 hvc, (jsonString_eq_self_iff _).2 hvp] at hb
    exact ⟨mode, hb⟩
  · intro net' baseURL req hreq req' hreq'
    obtain ⟨_, _, _, hr, _, _⟩ := WritePact_mem lib net m req hreq
    obtain ⟨_, _, _, hr', _, _⟩ := WritePact_mem lib net' _ req' hreq'
    rw [hr, hr']
    rfl
  · intro hr
    rw [WritePact_sent_of_accepted lib net m hc hp hr]
    exact List.cons_ne_nil _ _

/-- C4, amended, at the example endpoint, whose names are valid UTF-8: the document
that goes out has the three fields and the names of the endpoint. -/
theorem WritePact_document_encoded_witness :
    exampleEndpoint.Consumer ≠ lit "" ∧ exampleEndpoint.Provider ≠ lit "" ∧
    ValidString exampleEndpoint.Consumer = true ∧
    ValidString exampleEndpoint.Provider = true ∧
    examplePactRequest ∈ (WritePact goLib (netAnswer 200 (lit "")) exampleEndpoint).sent ∧
    ∃ mode, examplePactRequest.Body = some (.object
        [ (lit "consumer", .object [(lit "name", .string (lit "MyConsumer"))]),
          (lit "provider", .object [(lit "name", .string (lit "MyProvider"))]),
          (lit "pactFileWriteMode", .string mode) ]) :=
  have hmem : examplePactRequest ∈
      (WritePact goLib (netAnswer 200 (lit "")) exampleEndpoint).sent :=
    (List.mem_singleton.mpr rfl : examplePactRequest ∈ [examplePactRequest])
  ⟨by decide, by decide, by decide, by decide, hmem,
    (WritePact_document_encoded goLib (netAnswer 200 (lit "")) exampleEndpoint
      (by decide) (by decide)).2.2.2.1 (by decide) (by decide) examplePactRequest hmem⟩

/-- C5: whenever the transport answers a request of call with a response whose body
was read to its end, call returns success exactly when the status is in
200..299, and otherwise the failure whose message is the raw body; the same
holds for DeleteInteractions, AddInteraction, Verify and WritePact. -/
theorem call_status_rule (lib : Lib ι) (net : Request → DoResult) (req : Request)
    (status : Int) (body : GoString) (hres : net req = .res ⟨status, body, none⟩) :
    (∀ (method url : GoString) (content : Content ι),
      req ∈ (call lib net method url content).sent →
      StatusRule (call lib net method url content).err status body) ∧
    (∀ m : MockServiceHttp2, req ∈ (DeleteInteractions lib net m).sent →
      StatusRule (DeleteInteractions lib net m).err status body) ∧
    (∀ (m : MockServiceHttp2) (i : Option ι), req ∈ (AddInteraction lib net m i).sent →
      StatusRule (AddInteraction lib net m i).err status body) ∧
    (∀ m : MockServiceHttp2, req ∈ (Verify lib net m).sent →
      StatusRule (Verify lib net m).err status body) ∧
    (∀ m : MockServiceHttp2, req ∈ (WritePact lib net m).sent →
      StatusRule (WritePact lib net m).err status body) := by
  have key : ∀ (method url : GoString) (content : Content ι),
      req ∈ (call lib net method url content).sent →
      StatusRule (call lib net method url content).err status body := by
    intro method url content h
    obtain ⟨_, _, _, _, _, herr⟩ := call_mem lib net method url content req h
    rw [herr, hres]
    exact classify_res_statusRule status body
  refine ⟨key, ?_, ?_, ?_, ?_⟩
  · intro m h
    exact key (lit "DELETE") (m.BaseURL ++ lit "/interactions") .nil h
  · intro m i h
    exact key (lit "POST") (m.BaseURL ++ lit "/interactions") (.interaction i) h
  · intro m h
    exact key (lit "GET") (m.BaseURL ++ lit "/interactions/verification") .nil h
  · intro m h
    obtain ⟨_, _, _, _, _, herr⟩ := WritePact_mem lib net m req h
    rw [herr, hres]
    exact classify_res_statusRule status body

/-- C5 at a failed verification: the service answers 500 with its report as body, and
Verify returns the failure whose message is that report. -/
theorem call_status_rule_witness :
    netAnswer 500 (lit "Missing requests: GET /foobar")
        ⟨lit "GET", lit "https://localhost:9999/interactions/verification", controlHeader, none⟩ =
      .res ⟨500, lit "Missing requests: GET /foobar", none⟩ ∧
    (⟨lit "GET", lit "https://localhost:9999/interactions/verification", controlHeader, none⟩ : Request) ∈
      (Verify goLib (netAnswer 500 (lit "Missing requests: GET /foobar")) exampleEndpoint).sent ∧
    StatusRule (Verify goLib (netAnswer 500 (lit "Missing requests: GET /foobar")) exampleEndpoint).err
      500 (lit "Missing requests: GET /foobar") ∧
    (Verify goLib (netAnswer 500 (lit "Missing requests: GET /foobar")) exampleEndpoint).err =
      some (.errorString (lit "Missing requests: GET /foobar")) :=
  have hmem : (⟨lit "GET", lit "https://localhost:9999/interactions/verification", controlHeader, none⟩ :
      Request) ∈
      (Verify goLib (netAnswer 500 (lit "Missing requests: GET /foobar")) exampleEndpoint).sent :=
    (List.mem_singleton.mpr rfl :
      (⟨lit "GET", lit "https://localhost:9999/interactions/verification", controlHeader, none⟩ :
        Request) ∈
        [⟨lit "GET", lit "https://localhost:9999/interactions/verification", controlHeader, none⟩])
  ⟨rfl, hmem,
    (call_status_rule goLib (netAnswer 500 (lit "Missing requests: GET /foobar")) _ 500
      (lit "Missing requests: GET /foobar") rfl).2.2.2.1 exampleEndpoint hmem,
    rfl⟩

/-- C6: every request DeleteInteractions sends is a DELETE to BaseURL followed by
"/interactions" without body; every request AddInteraction sends for an
interaction is a POST to the same URL whose body is the encoding of the
interaction; every request Verify sends is a GET to BaseURL followed by
"/interactions/verification" without body. In each of them the request has
a body exactly when the call is mutating and has a payload. Each request is
sent whenever it can be built (the interaction encodes and `http.NewRequest`
accepts the URL). -/
theorem registry_requests (lib : Lib ι) (net : Request → DoResult)
    (m : MockServiceHttp2) (i : ι) :
    (∀ req ∈ (DeleteInteractions lib net m).sent,
      req.Method = lit "DELETE" ∧ req.URL = m.BaseURL ++ lit "/interactions" ∧ req.Body = none ∧
      req.Body.isSome = (mutating req.Method && payloadPresent (Content.nil : Content ι))) ∧
    (∀ req ∈ (AddInteraction lib net m (some i)).sent,
      req.Method = lit "POST" ∧ req.URL = m.BaseURL ++ lit "/interactions" ∧
      (∃ j, lib.marshalInteraction i = .ok j ∧ req.Body = some j) ∧
      req.Body.isSome = (mutating req.Method && payloadPresent (Content.interaction (some i)))) ∧
    (∀ req ∈ (Verify lib net m).sent,
      req.Method = lit "GET" ∧ req.URL = m.BaseURL ++ lit "/interactions/verification" ∧
      req.Body = none ∧
      req.Body.isSome = (mutating req.Method && payloadPresent (Content.nil : Content ι))) ∧
    (lib.newRequestError (lit "DELETE") (m.BaseURL ++ lit "/interactions") = none →
      ∃ req, (DeleteInteractions lib net m).sent = [req]) ∧
    (∀ j, lib.marshalInteraction i = .ok j →
      lib.newRequestError (lit "POST") (m.BaseURL ++ lit "/interactions") = none →
      ∃ req, (AddInteraction lib net m (some i)).sent = [req]) ∧
    (lib.newRequestError (lit "GET") (m.BaseURL ++ lit "/interactions/verification") = none →
      ∃ req, (Verify lib net m).sent = [req]) := by
  refine ⟨?_, ?_, ?_, ?_, ?_, ?_⟩
  · intro req h
    obtain ⟨body, _, _, hr, _, _⟩ :=
      call_mem lib net (lit "DELETE") (m.BaseURL ++ lit "/interactions") .nil req h
    rw [hr]
    exact ⟨rfl, rfl, rfl, rfl⟩
  · intro req h
    obtain ⟨body, hb, _, hr, _, _⟩ :=
      call_mem lib net (lit "POST") (m.BaseURL ++ lit "/interactions") (.interaction (some i)) req h
    rw [hr]
    exact ⟨rfl, rfl, ⟨body, hb, rfl⟩, rfl⟩
  · intro req h
    obtain ⟨body, _, _, hr, _, _⟩ :=
      call_mem lib net (lit "GET") (m.BaseURL ++ lit "/interactions/verification") .nil req h
    rw [hr]
    exact ⟨rfl, rfl, rfl, rfl⟩
  · intro hr
    exact ⟨_, congrArg Outcome.sent
      (call_accepted lib net (lit "DELETE") (m.BaseURL ++ lit "/interactions") .nil .null rfl hr)⟩
  · intro j hj hr
    exact ⟨_, congrArg Outcome.sent
      (call_accepted lib net (lit "POST") (m.BaseURL ++ lit "/interactions")
        (.interaction (some i)) j hj hr)⟩
  · intro hr
    exact ⟨_, congrArg Outcome.sent
      (call_accepted lib net (lit "GET") (m.BaseURL ++ lit "/interactions/verification") .nil .null rfl hr)⟩

/-- C6 at the example endpoint: registering the interaction "A request to get foo"
posts its encoding to "/interactions". -/
theorem registry_requests_witness :
    (⟨lit "POST", lit "https://localhost:9999/interactions", controlHeader,
        some (.string (lit "A request to get foo"))⟩ : Request) ∈
      (AddInteraction goLib (netAnswer 200 (lit "")) exampleEndpoint
        (some (lit "A request to get foo"))).sent ∧
    goLib.marshalInteraction (lit "A request to get foo") = .ok (.string (lit "A request to get foo")) ∧
    (⟨lit "POST", lit "https://localhost:9999/interactions", controlHeader,
        some (.string (lit "A request to get foo"))⟩ : Request).Method = lit "POST" ∧
    (⟨lit "POST", lit "https://localhost:9999/interactions", controlHeader,
        some (.string (lit "A request to get foo"))⟩ : Request).URL =
      exampleEndpoint.BaseURL ++ lit "/interactions" :=
  have hmem : (⟨lit "POST", lit "https://localhost:9999/interactions", controlHeader,
      some (.string (lit "A request to get foo"))⟩ : Request) ∈
      (AddInteraction goLib (netAnswer 200 (lit "")) exampleEndpoint
        (some (lit "A request to get foo"))).sent :=
    (List.mem_singleton.mpr rfl :
      (⟨lit "POST", lit "https://localhost:9999/interactions", controlHeader,
        some (.string (lit "A request to get foo"))⟩ : Request) ∈
        [⟨lit "POST", lit "https://localhost:9999/interactions", controlHeader,
          some (.string (lit "A request to get foo"))⟩])
  have h := (registry_requests goLib (netAnswer 200 (lit "")) exampleEndpoint
    (lit "A request to get foo")).2.1 _ hmem
  ⟨hmem, rfl, h.1, h.2.1⟩

/-- C7: every request call hands to the transport, for every method, URL and
payload, carries X-Pact-Mock-Service "true" and Content-Type
"application/json"; so does every request of the four operations. -/
theorem call_control_headers (lib : Lib ι) (net : Request → DoResult) :
    (∀ (method url : GoString) (content : Content ι),
      ∀ req ∈ (call lib net method url content).sent, ControlMarked req) ∧
    (∀ m : MockServiceHttp2, ∀ req ∈ (DeleteInteractions lib net m).sent, ControlMarked req) ∧
    (∀ (m : MockServiceHttp2) (i : Option ι),
      ∀ req ∈ (AddInteraction lib net m i).sent, ControlMarked req) ∧
    (∀ m : MockServiceHttp2, ∀ req ∈ (Verify lib net m).sent, ControlMarked req) ∧
    (∀ m : MockServiceHttp2, ∀ req ∈ (WritePact lib net m).sent, ControlMarked req) := by
  have key : ∀ (method url : GoString) (content : Content ι),
      ∀ req ∈ (call lib net method url content).sent, ControlMarked req := by
    intro method url content req h
    obtain ⟨body, _, _, hr, _, _⟩ := call_mem lib net method url content req h
    rw [hr]
    exact callRequest_marked method url body
  refine ⟨key, ?_, ?_, ?_, ?_⟩
  · intro m req h
    exact key (lit "DELETE") (m.BaseURL ++ lit "/interactions") .nil req h
  · intro m i req h
    exact key (lit "POST") (m.BaseURL ++ lit "/interactions") (.interaction i) req h
  · intro m req h
    exact key (lit "GET") (m.BaseURL ++ lit "/interactions/verification") .nil req h
  · intro m req h
    obtain ⟨_, _, _, hr, _, _⟩ := WritePact_mem lib net m req h
    rw [hr]
    exact callRequest_marked _ _ _

/-- C7 at the example endpoint: the DELETE that clears the interactions goes out,
also when no service listens, and carries both headers. -/
theorem call_control_headers_witness :
    (⟨lit "DELETE", lit "https://localhost:9999/interactions", controlHeader, none⟩ : Request) ∈
      (DeleteInteractions goLib netRefused exampleEndpoint).sent ∧
    ControlMarked ⟨lit "DELETE", lit "https://localhost:9999/interactions", controlHeader, none⟩ :=
  have hmem : (⟨lit "DELETE", lit "https://localhost:9999/interactions", controlHeader, none⟩ :
      Request) ∈ (DeleteInteractions goLib netRefused exampleEndpoint).sent :=
    (List.mem_singleton.mpr rfl :
      (⟨lit "DELETE", lit "https://localhost:9999/interactions", controlHeader, none⟩ : Request) ∈
        [⟨lit "DELETE", lit "https://localhost:9999/interactions", controlHeader, none⟩])
  ⟨hmem, (call_control_headers goLib netRefused).2.1 exampleEndpoint _ hmem⟩

/-- C8 as stated fails: with PactFileWriteMode "append", WritePact transmits
"append", which is neither "overwrite" nor "update". -/
theorem WritePact_sends_any_write_mode :
    (WritePact goLib (netAnswer 200 (lit ""))
        ⟨lit "https://localhost:9999", lit "MyConsumer", lit "MyProvider", lit "append"⟩).sent =
      [⟨lit "POST", lit "https://localhost:9999/pact", controlHeader,
        some (pactDocument (lit "MyConsumer") (lit "MyProvider") (lit "append"))⟩] ∧
    (pactDocument (lit "MyConsumer") (lit "MyProvider") (lit "append")).field (lit "pactFileWriteMode") =
      some (.string (lit "append")) ∧
    (lit "append") ≠ lit "overwrite" ∧ (lit "append") ≠ lit "update" :=
  ⟨rfl, rfl, by decide, by decide⟩

/-- C8, amended: the pactFileWriteMode value WritePact transmits is what the string
encoder writes for "overwrite" when PactFileWriteMode is empty and for
PactFileWriteMode otherwise; for a PactFileWriteMode that is valid UTF-8 that
is the value itself. The transmitted value is "overwrite" or "update" exactly
when PactFileWriteMode is empty, "overwrite" or "update". -/
theorem WritePact_write_mode_encoded (lib : Lib ι) (net : Request → DoResult)
    (m : MockServiceHttp2) :
    (∀ req ∈ (WritePact lib net m).sent, ∃ doc, req.Body = some doc ∧
      doc.field (lit "pactFileWriteMode") =
        some (.string (jsonString
          (if m.PactFileWriteMode = lit "" then lit "overwrite" else m.PactFileWriteMode)))) ∧
    (ValidString m.PactFileWriteMode = true →
      ∀ req ∈ (WritePact lib net m).sent, ∃ doc, req.Body = some doc ∧
        doc.field (lit "pactFileWriteMode") =
          some (.string
            (if m.PactFileWriteMode = lit "" then lit "overwrite" else m.PactFileWriteMode))) ∧
    ((m.PactFileWriteMode = lit "" ∨ m.PactFileWriteMode = lit "overwrite" ∨
        m.PactFileWriteMode = lit "update") →
      ∀ req ∈ (WritePact lib net m).sent, ∃ doc, req.Body = some doc ∧
        (doc.field (lit "pactFileWriteMode") = some (.string (lit "overwrite")) ∨
          doc.field (lit "pactFileWriteMode") = some (.string (lit "update")))) ∧
    (∀ req ∈ (WritePact lib net m).sent, ∀ doc, req.Body = some doc →
      (doc.field (lit "pactFileWriteMode") = some (.string (lit "overwrite")) ∨
        doc.field (lit "pactFileWriteMode") = some (.string (lit "update"))) →
      (m.PactFileWriteMode = lit "" ∨ m.PactFileWriteMode = lit "overwrite" ∨
        m.PactFileWriteMode = lit "update")) := by
  have key : ∀ req ∈ (WritePact lib net m).sent, ∃ doc, req.Body = some doc ∧
      doc.field (lit "pactFileWriteMode") =
        some (.string (jsonString
          (if m.PactFileWriteMode = lit "" then lit "overwrite" else m.PactFileWriteMode))) := by
    intro req h
    obtain ⟨_, _, _, hr, _, _⟩ := WritePact_mem lib net m req h
    rw [hr]
    exact ⟨_, rfl, rfl⟩
  have hover : jsonString (lit "overwrite") = lit "overwrite" := by decide
  refine ⟨key, ?_, ?_, ?_⟩
  · intro hv req h
    obtain ⟨doc, hb, hf⟩ := key req h
    refine ⟨doc, hb, ?_⟩
    rw [hf]
    by_cases hm : m.PactFileWriteMode = lit ""
    · rw [if_pos hm, hover]
    · rw [if_neg hm, (jsonString_eq_self_iff _).2 hv]
  · intro hm req h
    obtain ⟨doc, hb, hf⟩ := key req h
    refine ⟨doc, hb, ?_⟩
    rcases hm with hm | hm | hm
    · left; rw [hf, if_pos hm, hover]
    · left
      rw [hf, hm]
      rfl
    · right
      rw [hf, hm]
      rfl
  · intro req h doc hdoc hfield
    obtain ⟨doc', hb, hf⟩ := key req h
    rw [hdoc] at hb
    cases hb
    rw [hf] at hfield
    by_cases hm : m.PactFileWriteMode = lit ""
    · exact Or.inl hm
    · rw [if_neg hm] at hfield
      rcases hfield with h1 | h1
      · have h2 : jsonString m.PactFileWriteMode = lit "overwrite" := by
          simpa using h1
        exact Or.inr (Or.inl (jsonString_eq_ascii _ _ (by decide) h2))
      · have h2 : jsonString m.PactFileWriteMode = lit "update" := by
          simpa using h1
        exact Or.inr (Or.inr (jsonString_eq_ascii _ _ (by decide) h2))

/-- C8, amended, at the example endpoint with the write mode "update": the request
that goes out carries "update". -/
theorem WritePact_write_mode_encoded_witness :
    (lit "" = lit "" ∨ lit "update" = lit "overwrite" ∨ lit "update" = lit "update") ∧
    (⟨lit "POST", lit "https://localhost:9999/pact", controlHeader,
        some (pactDocument (lit "MyConsumer") (lit "MyProvider") (lit "update"))⟩ : Request) ∈
      (WritePact goLib (netAnswer 200 (lit ""))
        ⟨lit "https://localhost:9999", lit "MyConsumer", lit "MyProvider", lit "update"⟩).sent ∧
    ∃ doc, (⟨lit "POST", lit "https://localhost:9999/pact", controlHeader,
        some (pactDocument (lit "MyConsumer") (lit "MyProvider") (lit "update"))⟩ :
          Request).Body = some doc ∧
      (doc.field (lit "pactFileWriteMode") = some (.string (lit "overwrite")) ∨
        doc.field (lit "pactFileWriteMode") = some (.string (lit "update"))) :=
  have hmem : (⟨lit "POST", lit "https://localhost:9999/pact", controlHeader,
      some (pactDocument (lit "MyConsumer") (lit "MyProvider") (lit "update"))⟩ : Request) ∈
      (WritePact goLib (netAnswer 200 (lit ""))
        ⟨lit "https://localhost:9999", lit "MyConsumer", lit "MyProvider", lit "update"⟩).sent :=
    (List.mem_singleton.mpr rfl :
      (⟨lit "POST", lit "https://localhost:9999/pact", controlHeader,
        some (pactDocument (lit "MyConsumer") (lit "MyProvider") (lit "update"))⟩ : Request) ∈
        [⟨lit "POST", lit "https://localhost:9999/pact", controlHeader,
          some (pactDocument (lit "MyConsumer") (lit "MyProvider") (lit "update"))⟩])
  ⟨Or.inl rfl, hmem,
    (WritePact_write_mode_encoded goLib (netAnswer 200 (lit ""))
      ⟨lit "https://localhost:9999", lit "MyConsumer", lit "MyProvider", lit "update"⟩).2.2.1
      (Or.inr (Or.inr rfl)) _ hmem⟩

/-- C9: when client.Do fails for the request of one call, and answers the request of
another call with a status outside 200..299, the first call returns the
transport error itself, a value of type url.Error, the second returns the
value errors.New builds from the body, and the two differ whatever the body
is and however far it was read. -/
theorem transport_error_differs_from_protocol_error
    (lib lib' : Lib ι) (net net' : Request → DoResult)
    (method url method' url' : GoString) (content content' : Content ι)
    (req req' : Request) (e : URLError) (status : Int) (body : GoString)
    (readErr : Option GoError)
    (hreq : req ∈ (call lib net method url content).sent)
    (hnet : net req = .err e)
    (hreq' : req' ∈ (call lib' net' method' url' content').sent)
    (hnet' : net' req' = .res ⟨status, body, readErr⟩)
    (hstatus : ¬ (200 ≤ status ∧ status < 300)) :
    (call lib net method url content).err = some (.urlError e) ∧
    (call lib' net' method' url' content').err = some (.errorString body) ∧
    (call lib net method url content).err ≠ (call lib' net' method' url' content').err := by
  obtain ⟨_, _, _, _, _, herr⟩ := call_mem lib net method url content req hreq
  obtain ⟨_, _, _, _, _, herr'⟩ := call_mem lib' net' method' url' content' req' hreq'
  have h1 : (call lib net method url content).err = some (.urlError e) := by
    rw [herr, hnet]; rfl
  have h2 : (call lib' net' method' url' content').err = some (.errorString body) := by
    rw [herr', hnet']
    have hs : status < 200 ∨ status ≥ 300 := by omega
    simp [classify, hs]
  refine ⟨h1, h2, ?_⟩
  rw [h1, h2]
  simp

/-- C9 at the example endpoint: Verify against no listening service, and Verify
against a service that answers 500 with the very text of the connection
error as body. -/
theorem transport_error_differs_from_protocol_error_witness :
    (call goLib netRefused (lit "GET") (lit "https://localhost:9999/interactions/verification")
        Content.nil).err =
      some (.urlError ⟨lit "Get", lit "https://localhost:9999/interactions/verification",
        (lit "dial tcp 127.0.0.1:9999: connect: connection refused")⟩) ∧
    (call goLib (netAnswer 500 (lit "dial tcp 127.0.0.1:9999: connect: connection refused"))
        (lit "GET") (lit "https://localhost:9999/interactions/verification") Content.nil).err =
      some (.errorString (lit "dial tcp 127.0.0.1:9999: connect: connection refused")) ∧
    (call goLib netRefused (lit "GET") (lit "https://localhost:9999/interactions/verification")
        Content.nil).err ≠
      (call goLib (netAnswer 500 (lit "dial tcp 127.0.0.1:9999: connect: connection refused"))
        (lit "GET") (lit "https://localhost:9999/interactions/verification") Content.nil).err :=
  have hmem : ∀ net : Request → DoResult,
      (⟨lit "GET", lit "https://localhost:9999/interactions/verification", controlHeader, none⟩ :
        Request) ∈
      (call goLib net (lit "GET") (lit "https://localhost:9999/interactions/verification")
        Content.nil).sent :=
    fun net => (call_accepted goLib net (lit "GET")
      (lit "https://localhost:9999/interactions/verification") Content.nil .null rfl rfl) ▸
      List.mem_singleton.mpr rfl
  transport_error_differs_from_protocol_error goLib goLib netRefused
    (netAnswer 500 (lit "dial tcp 127.0.0.1:9999: connect: connection refused"))
    (lit "GET") (lit "https://localhost:9999/interactions/verification")
    (lit "GET") (lit "https://localhost:9999/interactions/verification") Content.nil Content.nil
    ⟨lit "GET", lit "https://localhost:9999/interactions/verification", controlHeader, none⟩
    ⟨lit "GET", lit "https://localhost:9999/interactions/verification", controlHeader, none⟩
    ⟨lit "Get", lit "https://localhost:9999/interactions/verification",
      (lit "dial tcp 127.0.0.1:9999: connect: connection refused")⟩
    500 (lit "dial tcp 127.0.0.1:9999: connect: connection refused") none
    (hmem netRefused) rfl (hmem _) rfl (by decide)

/-- C10: DeleteInteractions, AddInteraction and Verify leave the endpoint state as it
was. WritePact leaves BaseURL, Consumer and Provider as they were; it changes
PactFileWriteMode only from empty to "overwrite" and only with both names
present, does so whenever they are and the mode is empty, and leaves the
whole state as it was when a name is missing. A second WritePact on the
resulting state sends the same requests as the first and changes nothing. -/
theorem endpoint_frame (lib : Lib ι) (net net' : Request → DoResult)
    (m : MockServiceHttp2) (i : Option ι) :
    (DeleteInteractions lib net m).state = m ∧
    (AddInteraction lib net m i).state = m ∧
    (Verify lib net m).state = m ∧
    (WritePact lib net m).state.BaseURL = m.BaseURL ∧
    (WritePact lib net m).state.Consumer = m.Consumer ∧
    (WritePact lib net m).state.Provider = m.Provider ∧
    ((WritePact lib net m).state.PactFileWriteMode ≠ m.PactFileWriteMode →
      m.PactFileWriteMode = lit "" ∧ (WritePact lib net m).state.PactFileWriteMode = lit "overwrite" ∧
      m.Consumer ≠ lit "" ∧ m.Provider ≠ lit "") ∧
    (m.Consumer ≠ lit "" → m.Provider ≠ lit "" → m.PactFileWriteMode = lit "" →
      (WritePact lib net m).state.PactFileWriteMode = lit "overwrite") ∧
    ((m.Consumer = lit "" ∨ m.Provider = lit "") → (WritePact lib net m).state = m) ∧
    (WritePact lib net' (WritePact lib net m).state).sent = (WritePact lib net m).sent ∧
    (WritePact lib net' (WritePact lib net m).state).state = (WritePact lib net m).state := by
  refine ⟨rfl, rfl, rfl, ?_⟩
  by_cases hn : m.Consumer = lit "" ∨ m.Provider = lit ""
  · have h1 := WritePact_of_missing_name lib net m hn
    have hstate : (WritePact lib net m).state = m := by rw [h1]
    rw [hstate]
    refine ⟨rfl, rfl, rfl, fun h => absurd rfl h, ?_, fun _ => rfl, ?_, ?_⟩
    · intro hc hp
      rcases hn with hn | hn
      · exact absurd hn hc
      · exact absurd hn hp
    · rw [h1, WritePact_of_missing_name lib net' m hn]
    · rw [WritePact_of_missing_name lib net' m hn]
  · have hc : m.Consumer ≠ lit "" := fun hc => hn (Or.inl hc)
    have hp : m.Provider ≠ lit "" := fun hp => hn (Or.inr hp)
    have hstate := WritePact_state_of_names lib net m hc hp
    have hsent := WritePact_sent_of_names lib net m hc hp
    have hstate' := WritePact_state_of_names lib net'
      { m with PactFileWriteMode :=
          if m.PactFileWriteMode = lit "" then lit "overwrite" else m.PactFileWriteMode } hc hp
    have hsent' := WritePact_sent_of_names lib net'
      { m with PactFileWriteMode :=
          if m.PactFileWriteMode = lit "" then lit "overwrite" else m.PactFileWriteMode } hc hp
    simp only [writeMode_filled_twice] at hstate' hsent'
    rw [hstate]
    refine ⟨rfl, rfl, rfl, ?_, ?_, fun h => absurd h hn, ?_, hstate'⟩
    · intro h
      by_cases hm : m.PactFileWriteMode = lit ""
      · exact ⟨hm, by simp [hm], hc, hp⟩
      · exact absurd (by simp [hm]) h
    · intro _ _ hm
      simp [hm]
    · rw [hsent', hsent]
      exact call_sent_net_irrelevant lib net net' _ _ _

/-- C10 at the example endpoint, whose write mode is unset: the first WritePact
fills in "overwrite", and a second one, against a service that has gone
away, sends the same request. -/
theorem endpoint_frame_witness :
    exampleEndpoint.Consumer ≠ lit "" ∧ exampleEndpoint.Provider ≠ lit "" ∧
    exampleEndpoint.PactFileWriteMode = lit "" ∧
    (WritePact goLib (netAnswer 200 (lit "")) exampleEndpoint).state.PactFileWriteMode =
      (lit "overwrite") ∧
    (WritePact goLib netRefused (WritePact goLib (netAnswer 200 (lit "")) exampleEndpoint).state).sent =
      (WritePact goLib (netAnswer 200 (lit "")) exampleEndpoint).sent ∧
    (WritePact goLib (netAnswer 200 (lit "")) exampleEndpoint).sent = [examplePactRequest] :=
  have h := endpoint_frame goLib (netAnswer 200 (lit "")) netRefused exampleEndpoint
    (some (lit "A request to get foo"))
  ⟨by decide, by decide, rfl, h.2.2.2.2.2.2.2.1 (by decide) (by decide) rfl,
    h.2.2.2.2.2.2.2.2.2.1, rfl⟩

end Claims

end Dsl
